import Mathlib

/-!
Shallow embedding of the anki-mcp-server vocabulary import core
(src/japanese_utils.py and the import_japanese_vocab tool of src/server.py),
together with theorems settling the frozen claims about it.

Python strings are modelled as Lean `String`; Python lists as Lean `List`;
the mutable Anki collection touched by the import loop is modelled as an
explicit state record threaded through the loop.  Calls with externally
visible effects (opening the CSV source, attempting a row, committing)
additionally emit events into a trace so that ordering claims are statable.
-/

set_option autoImplicit false

namespace AnkiMcp

/-! ## Python string primitives

`pyStrip` models Python `str.strip()` (drop whitespace at both ends) and
`pySplit` models Python `str.split(sep)` for a one-character separator:
it keeps empty pieces and returns `[""]` on the empty string, exactly as
Python does. -/

/-- Whitespace characters recognised by Python `str.strip()` (the ASCII ones;
the source data never carries exotic Unicode spaces). -/
def isPySpace (c : Char) : Bool :=
  c = ' ' || c = '\t' || c = '\n' || c = '\r' || c = Char.ofNat 11 || c = Char.ofNat 12

/-- Python `str.strip()`. -/
def pyStrip (s : String) : String :=
  String.mk (((s.data.dropWhile isPySpace).reverse.dropWhile isPySpace).reverse)

/-- Accumulating worker for `pySplit`: `acc` is the piece currently being built. -/
def pySplitGo (sep : Char) : List Char → List Char → List (List Char)
  | [], acc => [acc]
  | c :: cs, acc =>
    if c = sep then acc :: pySplitGo sep cs []
    else pySplitGo sep cs (acc ++ [c])

/-- Python `str.split(sep)` for a single-character separator. -/
def pySplit (s : String) (sep : Char) : List String :=
  (pySplitGo sep s.data []).map String.mk

/-! ## japanese_utils.py -/

/-- `is_kanji` from japanese_utils.py: code point in the CJK unified
ideographs block, `一 <= char <= 鿿`. -/
def is_kanji (c : Char) : Bool :=
  0x4e00 ≤ c.toNat && c.toNat ≤ 0x9fff

/-- `is_kana` from japanese_utils.py: hiragana `぀-ゟ` or
katakana `゠-ヿ`. -/
def is_kana (c : Char) : Bool :=
  (0x3040 ≤ c.toNat && c.toNat ≤ 0x309f) || (0x30a0 ≤ c.toNat && c.toNat ≤ 0x30ff)

/-- Worker for `kanaSegments`: `current` is the pending run of non-kana
characters (Python `current_segment`).  A kana character first flushes the
pending run, then is emitted as its own one-character segment; at the end of
the input the pending run is flushed if non-empty. -/
def kanaSegmentsGo : List Char → List Char → List String
  | [], current => if current = [] then [] else [String.mk current]
  | c :: cs, current =>
    if is_kana c then
      (if current = [] then [] else [String.mk current]) ++
        String.singleton c :: kanaSegmentsGo cs []
    else
      kanaSegmentsGo cs (current ++ [c])

/-- The `kana_segments` list built by `add_furigana`: the reading split into
single-kana segments and maximal runs of non-kana characters. -/
def kanaSegments (reading : String) : List String :=
  kanaSegmentsGo reading.data []

/-- One output piece of the `add_furigana` walk: the expression character
together with the bracketed gloss attached to it, if any.  Python builds the
rendered strings directly; splitting each appended element into
(character, optional segment) is the same data, kept structured so that the
shape of the output is statable. -/
def renderPiece : Char × Option String → String
  | (c, none) => String.singleton c
  | (c, some seg) => String.singleton c ++ "[" ++ seg ++ "]"

/-- The matching walk of `add_furigana`: `kanaIdx` is Python `kana_idx`.
A kanji consumes the segment under the cursor (bare if exhausted); a
non-kanji character is emitted bare and advances the cursor exactly when it
equals the segment under the cursor. -/
def furiganaPieces (segs : List String) : List Char → Nat → List (Char × Option String)
  | [], _ => []
  | c :: cs, kanaIdx =>
    if is_kanji c then
      if kanaIdx < segs.length then
        (c, some (segs.getD kanaIdx "")) :: furiganaPieces segs cs (kanaIdx + 1)
      else
        (c, none) :: furiganaPieces segs cs kanaIdx
    else
      (c, none) :: furiganaPieces segs cs
        (if kanaIdx < segs.length && String.singleton c == segs.getD kanaIdx "" then
          kanaIdx + 1
        else kanaIdx)

/-- `add_furigana` from japanese_utils.py. -/
def add_furigana (expression reading : String) : String :=
  if expression.data.any is_kanji then
    String.join ((furiganaPieces (kanaSegments reading) expression.data 0).map renderPiece)
  else
    reading

/-! ## read_vocab_csv (japanese_utils.py)

The CSV file itself is row-oriented with named columns; `csv.DictReader`
together with `row.get(column, '')` yields, per row, the four cell values
with absent columns defaulting to the empty string.  A parsed row is
modelled as those four raw cells. -/

/-- One raw CSV row: the values of the `Expression`, `Reading`, `Meaning`
and `Tags` columns, empty string when the column is absent. -/
structure CsvRow where
  expressionCell : String
  readingCell : String
  meaningCell : String
  tagsCell : String
deriving DecidableEq

/-- One processed vocabulary entry, as appended to `vocab_entries`. -/
structure VocabEntry where
  fields : List String
  tags : List String
  expression : String
deriving DecidableEq

/-- The loop body of `read_vocab_csv`: strip the expression and reading,
annotate the reading, assemble the three fields, and build the tag list from
the semicolon-separated `Tags` cell followed by the additional tags. -/
def processRow (additionalTags : List String) (row : CsvRow) : VocabEntry :=
  let expression := pyStrip row.expressionCell
  let reading := pyStrip row.readingCell
  let readingWithFurigana := add_furigana expression reading
  let fields := [expression, pyStrip row.meaningCell, readingWithFurigana]
  let csvTags := pyStrip row.tagsCell
  let noteTags :=
    (if csvTags ≠ "" then (pySplit csvTags ';').map pyStrip else []) ++ additionalTags
  { fields := fields, tags := noteTags, expression := expression }

/-- `read_vocab_csv` on already-decoded rows: the per-row processing mapped
over the parsed rows, in order. -/
def read_vocab_csv (rows : List CsvRow) (additionalTags : List String) : List VocabEntry :=
  rows.map (processRow additionalTags)

/-! ## import_japanese_vocab (server.py)

The Anki collection is modelled by the parts the tool touches: whether the
deck and the note type resolve, the notes currently filed under the deck
(in card-id enumeration order, each tagged with its note id), the CSV
source (`none` when opening/parsing it raises), and a predicate saying
which note values `col.add_note` rejects.  The loop state carries the
existing notes (overwritten in place by note id), the notes newly attached
to the deck, and the three counters. -/

/-- A note: its ordered field values and its tags. -/
structure Note where
  fields : List String
  tags : List String
deriving DecidableEq

/-- The collection surface used by `import_japanese_vocab`. -/
structure Gateway where
  deckExists : Bool
  notetypeExists : Bool
  existingNotes : List (Nat × Note)
  source : Option (List CsvRow)
  rejectCreate : Note → Bool

/-- State threaded through the row loop. -/
structure LoopState where
  notes : List (Nat × Note)
  newNotes : List Note
  added : Nat
  updated : Nat
  skipped : Nat
deriving DecidableEq

/-- Externally visible effects of one run, recorded for ordering claims:
opening/reading the CSV source, attempting one parsed row, and the single
durable save (`col.save()`). -/
inductive Event where
  | readSource
  | rowAttempt (expression : String)
  | commit
deriving DecidableEq

/-- Result of the tool: the string it returns, or a propagated exception. -/
inductive ImportResult where
  | returned (msg : String)
  | raised
deriving DecidableEq

/-- The key under which a note is indexed: its first field
(`note.fields[0]`; Anki notes always have at least one field). -/
def noteKey (n : Note) : String :=
  n.fields.headD ""

/-- One dictionary assignment `existing_notes[key] = nid`: replace the value
when the key is present, append otherwise. -/
def insertIndex (ix : List (String × Nat)) (k : String) (nid : Nat) : List (String × Nat) :=
  if ix.any (fun p => p.1 == k) then
    ix.map (fun p => if p.1 == k then (k, nid) else p)
  else
    ix ++ [(k, nid)]

/-- The `existing_notes` dictionary: notes enumerated in card order, keyed by
their first field, last enumeration winning. -/
def buildIndex (notes : List (Nat × Note)) : List (String × Nat) :=
  notes.foldl (fun ix p => insertIndex ix (noteKey p.2) p.1) []

/-- Dictionary lookup in the index. -/
def indexLookup (ix : List (String × Nat)) (k : String) : Option Nat :=
  match ix.find? (fun p => p.1 == k) with
  | some p => some p.2
  | none => none

/-- Overwrite the note stored under `nid` in place. -/
def setNote (notes : List (Nat × Note)) (nid : Nat) (n : Note) : List (Nat × Note) :=
  notes.map (fun p => if p.1 == nid then (p.1, n) else p)

/-- The body of the row loop: an entry whose expression is in the index
overwrites that existing note and counts as updated; otherwise a new note is
built and attached to the deck, counting as added, unless the store rejects
the creation, which counts as skipped. -/
def stepEntry (ix : List (String × Nat)) (reject : Note → Bool)
    (s : LoopState) (e : VocabEntry) : LoopState :=
  match indexLookup ix e.expression with
  | some nid =>
    { s with
      notes := setNote s.notes nid { fields := e.fields, tags := e.tags }
      updated := s.updated + 1 }
  | none =>
    let note : Note := { fields := e.fields, tags := e.tags }
    if reject note then
      { s with skipped := s.skipped + 1 }
    else
      { s with newNotes := s.newNotes ++ [note], added := s.added + 1 }

/-- The row loop: fold `stepEntry` over the parsed entries in source order. -/
def runEntries (ix : List (String × Nat)) (reject : Note → Bool) :
    LoopState → List VocabEntry → LoopState
  | s, [] => s
  | s, e :: es => runEntries ix reject (stepEntry ix reject s e) es

/-- The row-attempt events of a run: one per parsed entry, in order. -/
def rowEventsOf (entries : List VocabEntry) : List Event :=
  entries.map (fun e => Event.rowAttempt e.expression)

/-- Decimal digit character. -/
def decDigit (d : Nat) : Char :=
  if d = 0 then '0' else if d = 1 then '1' else if d = 2 then '2'
  else if d = 3 then '3' else if d = 4 then '4' else if d = 5 then '5'
  else if d = 6 then '6' else if d = 7 then '7' else if d = 8 then '8' else '9'

/-- Decimal digits of `n`, most significant first, prepended to `acc`; the
first argument is fuel, one unit per emitted digit, so `n` units always
suffice for a positive `n`. -/
def natDigitsGo : Nat → Nat → List Char → List Char
  | 0, _, acc => acc
  | fuel + 1, n, acc =>
    if n = 0 then acc else natDigitsGo fuel (n / 10) (decDigit (n % 10) :: acc)

/-- Decimal rendering of a natural number, as Python `f"{n}"` prints an int. -/
def natRepr (n : Nat) : String :=
  if n = 0 then "0" else String.mk (natDigitsGo n n [])

/-- The success message built at the end of the run
(`f"Import complete:\nNotes added: ...\nNotes updated: ...\nNotes skipped (errors): ..."`). -/
def formatSummary (added updated skipped : Nat) : String :=
  "Import complete:\nNotes added: " ++ natRepr added ++
    "\nNotes updated: " ++ natRepr updated ++
    "\nNotes skipped (errors): " ++ natRepr skipped

/-- An ASCII single quote, kept out of string literals. -/
def sqChar : Char := Char.ofNat 39

/-- The early-return message when the deck does not resolve. -/
def deckNotFoundMsg (deckName : String) : String :=
  "Error: Deck " ++ String.singleton sqChar ++ deckName ++ String.singleton sqChar
    ++ " not found"

/-- The early-return message when the note type does not resolve. -/
def notetypeNotFoundMsg : String :=
  "Error: Japanese (recognition) note type not found"

/-- The additional tags computed from the `tags` parameter: `None` and the
empty string are falsy in Python and yield no tags, otherwise the string is
split on commas and each piece stripped. -/
def additionalTagsOf (tags : Option String) : List String :=
  match tags with
  | none => []
  | some t => if t = "" then [] else (pySplit t ',').map pyStrip

/-- `import_japanese_vocab` from server.py, with its event trace.  The deck
and note-type checks return early with an error message before the source is
touched; then the additional tags and the existing-note index are built, the
source is read (a raised read/parse error propagates), every parsed row is
attempted in order, and a single commit ends the run. -/
def import_japanese_vocab (g : Gateway) (deckName : String) (tags : Option String) :
    ImportResult × List Event :=
  if !g.deckExists then
    (ImportResult.returned (deckNotFoundMsg deckName), [])
  else if !g.notetypeExists then
    (ImportResult.returned notetypeNotFoundMsg, [])
  else
    let additionalTags := additionalTagsOf tags
    let ix := buildIndex g.existingNotes
    match g.source with
    | none => (ImportResult.raised, [Event.readSource])
    | some rows =>
      let entries := read_vocab_csv rows additionalTags
      let s0 : LoopState :=
        { notes := g.existingNotes, newNotes := [], added := 0, updated := 0, skipped := 0 }
      let sFinal := runEntries ix g.rejectCreate s0 entries
      (ImportResult.returned (formatSummary sFinal.added sFinal.updated sFinal.skipped),
        Event.readSource :: rowEventsOf entries ++ [Event.commit])

/-- The lines of a string: pieces between newline characters. -/
def lineList (s : String) : List String :=
  pySplit s '\n'

/-! ## Concrete inputs used to instantiate the theorems -/

/-- A store that rejects no creation. -/
def noRejects : Note → Bool := fun _ => false

/-- Existing-note index holding the expression 水 under note id 7. -/
def ixC1 : List (String × Nat) := [("水", 7)]

/-- Loop state holding one existing note, id 7. -/
def stC1 : LoopState :=
  { notes := [(7, { fields := ["水", "water", "みず"], tags := ["old"] })],
    newNotes := [], added := 0, updated := 0, skipped := 0 }

/-- A parsed row whose expression 水 is in `ixC1`. -/
def entryC1a : VocabEntry :=
  { fields := ["水", "agua", "みず"], tags := ["t1"], expression := "水" }

/-- A parsed row whose expression 火 is not in `ixC1`. -/
def entryC1b : VocabEntry :=
  { fields := ["火", "fire", "ひ"], tags := [], expression := "火" }

/-- A gateway whose deck does not resolve. -/
def gwC2 : Gateway :=
  { deckExists := false, notetypeExists := true, existingNotes := [],
    source := some [{ expressionCell := "犬", readingCell := "いぬ",
                      meaningCell := "dog", tagsCell := "" }],
    rejectCreate := noRejects }

/-- A store that rejects exactly the notes whose first field is 悪. -/
def rejC3 : Note → Bool := fun n => n.fields.headD "" == "悪"

/-- Empty loop state. -/
def stC3 : LoopState :=
  { notes := [], newNotes := [], added := 0, updated := 0, skipped := 0 }

/-- A parsed row whose creation `rejC3` rejects. -/
def entryC3 : VocabEntry :=
  { fields := ["悪", "bad", "わるい"], tags := [], expression := "悪" }

/-- A subsequent parsed row, processed after the rejected one. -/
def restC3 : List VocabEntry :=
  [{ fields := ["良", "good", "よい"], tags := [], expression := "良" }]

/-- A gateway on which the run completes and commits. -/
def gwC4 : Gateway :=
  { deckExists := true, notetypeExists := true, existingNotes := [],
    source := some [{ expressionCell := "犬", readingCell := "いぬ",
                      meaningCell := "dog", tagsCell := "" }],
    rejectCreate := noRejects }

/-- A CSV row carrying the tags cell `jlpt;n3`. -/
def rowC5 : CsvRow :=
  { expressionCell := "食べ物", readingCell := "たべもの",
    meaningCell := "food", tagsCell := "jlpt;n3" }

/-- A gateway whose run completes successfully with one added note. -/
def gwC8 : Gateway :=
  { deckExists := true, notetypeExists := true, existingNotes := [],
    source := some [{ expressionCell := "猫", readingCell := "ねこ",
                      meaningCell := "cat", tagsCell := "" }],
    rejectCreate := noRejects }

/-! ## Helper lemmas -/

theorem setNote_mem (notes : List (Nat × Note)) (nid : Nat) (n : Note)
    (h : nid ∈ notes.map Prod.fst) : (nid, n) ∈ setNote notes nid n := by
  induction notes with
  | nil => simp at h
  | cons p ps ih =>
    simp only [List.map_cons, List.mem_cons] at h
    simp only [setNote, List.map_cons, List.mem_cons] at *
    rcases h with h | h
    · left
      rw [if_pos (by simp [h])]
      simp [h]
    · right
      exact ih h

theorem stepEntry_counters (ix : List (String × Nat)) (reject : Note → Bool)
    (s : LoopState) (e : VocabEntry) :
    (stepEntry ix reject s e).added + (stepEntry ix reject s e).updated +
        (stepEntry ix reject s e).skipped =
      s.added + s.updated + s.skipped + 1 := by
  unfold stepEntry
  cases h : indexLookup ix e.expression with
  | some nid => simp; omega
  | none =>
    dsimp only
    split <;> (simp; omega)

theorem furiganaPieces_fst (segs : List String) :
    ∀ (cs : List Char) (k : Nat),
      (furiganaPieces segs cs k).map Prod.fst = cs := by
  intro cs
  induction cs with
  | nil => intro k; simp [furiganaPieces]
  | cons c cs ih =>
    intro k
    unfold furiganaPieces
    split
    · split <;> simp [ih]
    · simp [ih]

/-! ## Claim theorems -/

/-- Claim C1: within the import loop, a parsed row whose expression is a key
of the existing-record index overwrites that existing record with the row
fields and tags in place (a full overwrite, with no diffing even when
unchanged) and increments the updated counter; a row whose expression is not
a key, when the store accepts the creation, appends a new note carrying the
row fields and tags to the deck and increments the added counter. -/
theorem claim_c1 (ix : List (String × Nat)) (reject : Note → Bool)
    (s : LoopState) (e : VocabEntry) :
    (∀ nid, indexLookup ix e.expression = some nid →
      stepEntry ix reject s e =
          { s with
            notes := setNote s.notes nid { fields := e.fields, tags := e.tags }
            updated := s.updated + 1 } ∧
        (nid ∈ s.notes.map Prod.fst →
          (nid, ({ fields := e.fields, tags := e.tags } : Note)) ∈
            (stepEntry ix reject s e).notes)) ∧
    (indexLookup ix e.expression = none →
      reject { fields := e.fields, tags := e.tags } = false →
      stepEntry ix reject s e =
        { s with
          newNotes := s.newNotes ++ [{ fields := e.fields, tags := e.tags }]
          added := s.added + 1 }) := by
  constructor
  · intro nid h
    constructor
    · simp [stepEntry, h]
    · intro hmem
      simp only [stepEntry, h]
      exact setNote_mem s.notes nid _ hmem
  · intro h hr
    simp [stepEntry, h, hr]

/-- Witness for C1: both branches at concrete inputs. -/
theorem claim_c1_witness :
    stepEntry ixC1 noRejects stC1 entryC1a =
        { stC1 with
          notes := setNote stC1.notes 7 { fields := entryC1a.fields, tags := entryC1a.tags }
          updated := stC1.updated + 1 } ∧
      (7, ({ fields := entryC1a.fields, tags := entryC1a.tags } : Note)) ∈
        (stepEntry ixC1 noRejects stC1 entryC1a).notes ∧
      stepEntry ixC1 noRejects stC1 entryC1b =
        { stC1 with
          newNotes := stC1.newNotes ++ [{ fields := entryC1b.fields, tags := entryC1b.tags }]
          added := stC1.added + 1 } :=
  ⟨((claim_c1 ixC1 noRejects stC1 entryC1a).1 7 (by decide)).1,
    ((claim_c1 ixC1 noRejects stC1 entryC1a).1 7 (by decide)).2 (by decide),
    (claim_c1 ixC1 noRejects stC1 entryC1b).2 (by decide) rfl⟩

/-- Claim C3: a row whose expression is not in the index and whose creation
the store rejects only increments the skipped counter, and the run does not
abort: the remaining rows are processed from that state. -/
theorem claim_c3 (ix : List (String × Nat)) (reject : Note → Bool)
    (s : LoopState) (e : VocabEntry) (rest : List VocabEntry)
    (hout : indexLookup ix e.expression = none)
    (hrej : reject { fields := e.fields, tags := e.tags } = true) :
    stepEntry ix reject s e = { s with skipped := s.skipped + 1 } ∧
    runEntries ix reject s (e :: rest) =
      runEntries ix reject { s with skipped := s.skipped + 1 } rest := by
  have hstep : stepEntry ix reject s e = { s with skipped := s.skipped + 1 } := by
    simp [stepEntry, hout, hrej]
  refine ⟨hstep, ?_⟩
  show runEntries ix reject (stepEntry ix reject s e) rest = _
  rw [hstep]

/-- Witness for C3: a rejected row at a concrete input, followed by one more row. -/
theorem claim_c3_witness :
    stepEntry [] rejC3 stC3 entryC3 = { stC3 with skipped := stC3.skipped + 1 } ∧
      runEntries [] rejC3 stC3 (entryC3 :: restC3) =
        runEntries [] rejC3 { stC3 with skipped := stC3.skipped + 1 } restC3 :=
  claim_c3 [] rejC3 stC3 entryC3 restC3 (by decide) (by decide)

/-- Claim C9: over any prefix state, running the row loop increments the
three counters by exactly the number of parsed rows in total: each row adds
one to exactly one counter, so added + updated + skipped grows by the row
count (the counters are naturals, hence non-negative). -/
theorem claim_c9 (ix : List (String × Nat)) (reject : Note → Bool)
    (s : LoopState) (entries : List VocabEntry) :
    (runEntries ix reject s entries).added + (runEntries ix reject s entries).updated +
        (runEntries ix reject s entries).skipped =
      s.added + s.updated + s.skipped + entries.length := by
  induction entries generalizing s with
  | nil => simp [runEntries]
  | cons e es ih =>
    have hrw : runEntries ix reject s (e :: es) =
        runEntries ix reject (stepEntry ix reject s e) es := rfl
    rw [hrw, ih (stepEntry ix reject s e)]
    have := stepEntry_counters ix reject s e
    simp only [List.length_cons]
    omega

/-- Claim C6 counterexample: the annotator on expression 食べ物 with reading
たべもの does not return 食[た]べ物[もの]. -/
theorem claim_c6_counterexample :
    add_furigana "食べ物" "たべもの" ≠ "食[た]べ物[もの]" := by decide

/-- Claim C6 (amended): the annotator on expression 食べ物 with reading
たべもの returns 食[た]べ物[も]: under single-kana segmentation each of the
two logographic characters consumes exactly one kana left to right, so 物
receives only も and the final kana の is never consumed. -/
theorem claim_c6 :
    add_furigana "食べ物" "たべもの" = "食[た]べ物[も]" := by decide

/-- Claim C7: when the expression contains no logographic character, the
annotator returns the reading unchanged. -/
theorem claim_c7 (expression reading : String)
    (h : ∀ c ∈ expression.data, is_kanji c = false) :
    add_furigana expression reading = reading := by
  have hany : expression.data.any is_kanji = false := by
    rw [List.any_eq_false]
    intro c hc
    simp [h c hc]
  simp [add_furigana, hany]

/-- Witness for C7 at the concrete input たべる. -/
theorem claim_c7_witness : add_furigana "たべる" "たべる" = "たべる" :=
  claim_c7 "たべる" "たべる" (by decide)

/-- Claim C10: when the expression contains a logographic character, the
output is the concatenation of one piece per expression character, and
dropping the bracketed gloss of every piece leaves exactly the expression
characters, once each, in order. -/
theorem claim_c10 (expression reading : String)
    (h : expression.data.any is_kanji = true) :
    add_furigana expression reading =
        String.join ((furiganaPieces (kanaSegments reading) expression.data 0).map renderPiece) ∧
      (furiganaPieces (kanaSegments reading) expression.data 0).map Prod.fst =
        expression.data := by
  refine ⟨?_, furiganaPieces_fst _ _ _⟩
  simp [add_furigana, h]

/-- Witness for C10 at the concrete input 食べ物 / たべもの. -/
theorem claim_c10_witness :
    add_furigana "食べ物" "たべもの" =
        String.join ((furiganaPieces (kanaSegments "たべもの") "食べ物".data 0).map renderPiece) ∧
      (furiganaPieces (kanaSegments "たべもの") "食べ物".data 0).map Prod.fst =
        "食べ物".data :=
  claim_c10 "食べ物" "たべもの" (by decide)

/-- Claim C5: the tag list of a processed row is the semicolon-split,
trimmed source tags followed by the caller-supplied extra tags; on the cell
`jlpt;n3` with extras `[batch1]` it is exactly `[jlpt, n3, batch1]`. -/
theorem claim_c5 (row : CsvRow) (extras : List String) :
    (processRow extras row).tags = (processRow [] row).tags ++ extras ∧
    (row.tagsCell = "jlpt;n3" →
      (processRow ["batch1"] row).tags = ["jlpt", "n3", "batch1"]) := by
  constructor
  · simp [processRow]
  · intro h
    simp only [processRow]
    rw [h]
    decide

/-- Witness for C5 at a concrete row. -/
theorem claim_c5_witness :
    (processRow ["batch1"] rowC5).tags = ["jlpt", "n3", "batch1"] :=
  (claim_c5 rowC5 ["batch1"]).2 rfl

/-- Claim C2: when the deck or the required note type does not resolve, the
tool returns the corresponding not-found failure message immediately and its
trace is empty: the source was never opened, no row was attempted, and no
commit happened. -/
theorem claim_c2 (g : Gateway) (deckName : String) (tags : Option String)
    (h : g.deckExists = false ∨ g.notetypeExists = false) :
    ((import_japanese_vocab g deckName tags).1 =
        ImportResult.returned (deckNotFoundMsg deckName) ∨
      (import_japanese_vocab g deckName tags).1 =
        ImportResult.returned notetypeNotFoundMsg) ∧
    (import_japanese_vocab g deckName tags).2 = [] := by
  unfold import_japanese_vocab
  rcases h with h | h
  · simp [h]
  · by_cases hd : g.deckExists
    · simp [hd, h]
    · simp [hd]

/-- Witness for C2: a gateway whose deck is missing. -/
theorem claim_c2_witness :
    ((import_japanese_vocab gwC2 "Missing Deck" none).1 =
        ImportResult.returned (deckNotFoundMsg "Missing Deck") ∨
      (import_japanese_vocab gwC2 "Missing Deck" none).1 =
        ImportResult.returned notetypeNotFoundMsg) ∧
    (import_japanese_vocab gwC2 "Missing Deck" none).2 = [] :=
  claim_c2 gwC2 "Missing Deck" none (Or.inl (by decide))

theorem commit_not_mem_rowEvents (entries : List VocabEntry) :
    Event.commit ∉ rowEventsOf entries := by
  simp [rowEventsOf]

/-- Claim C4: in every run the commit event occurs at most once; a raised
fatal error means it never occurred; and when it does occur, the source
parsed into rows and the trace is exactly the source read, one attempt per
parsed row in order, then the single commit at the very end. -/
theorem claim_c4 (g : Gateway) (deckName : String) (tags : Option String) :
    (import_japanese_vocab g deckName tags).2.count Event.commit ≤ 1 ∧
    ((import_japanese_vocab g deckName tags).1 = ImportResult.raised →
      Event.commit ∉ (import_japanese_vocab g deckName tags).2) ∧
    (Event.commit ∈ (import_japanese_vocab g deckName tags).2 →
      ∃ rows, g.source = some rows ∧
        (import_japanese_vocab g deckName tags).2 =
          Event.readSource ::
            rowEventsOf (read_vocab_csv rows (additionalTagsOf tags)) ++ [Event.commit]) := by
  unfold import_japanese_vocab
  by_cases hd : g.deckExists
  · by_cases hn : g.notetypeExists
    · cases hs : g.source with
      | none => simp [hd, hn, hs]
      | some rows =>
        simp only [hd, hn, hs, Bool.not_true, Bool.false_eq_true, if_false]
        refine ⟨?_, ?_, ?_⟩
        · have hnot := commit_not_mem_rowEvents (read_vocab_csv rows (additionalTagsOf tags))
          simp [List.count_append, List.count_cons, List.count_eq_zero.mpr hnot]
        · intro habs
          simp at habs
        · intro _
          exact ⟨rows, rfl, rfl⟩
    · simp [hd, hn]
  · simp [hd]

/-- Witness for C4: the completed run on a concrete gateway has the stated
trace shape. -/
theorem claim_c4_witness :
    ∃ rows, gwC4.source = some rows ∧
      (import_japanese_vocab gwC4 "MyDeck" none).2 =
        Event.readSource ::
          rowEventsOf (read_vocab_csv rows (additionalTagsOf none)) ++ [Event.commit] :=
  (claim_c4 gwC4 "MyDeck" none).2.2 (by decide)

theorem pySplitGo_no_sep (sep : Char) :
    ∀ (cs acc : List Char), (∀ c ∈ cs, ¬c = sep) →
      pySplitGo sep cs acc = [acc ++ cs] := by
  intro cs
  induction cs with
  | nil => intro acc _; simp [pySplitGo]
  | cons c cs ih =>
    intro acc h
    have hc : ¬c = sep := h c (by simp)
    rw [pySplitGo, if_neg hc, ih (acc ++ [c]) (fun d hd => h d (by simp [hd]))]
    simp

theorem pySplitGo_sep_append (sep : Char) :
    ∀ (xs ys acc : List Char), (∀ c ∈ xs, ¬c = sep) →
      pySplitGo sep (xs ++ sep :: ys) acc = (acc ++ xs) :: pySplitGo sep ys [] := by
  intro xs
  induction xs with
  | nil => intro ys acc _; simp [pySplitGo]
  | cons x xs ih =>
    intro ys acc h
    have hx : ¬x = sep := h x (by simp)
    rw [List.cons_append, pySplitGo, if_neg hx,
      ih ys (acc ++ [x]) (fun d hd => h d (by simp [hd]))]
    simp

theorem decDigit_ne_newline (d : Nat) : ¬decDigit d = '\n' := by
  unfold decDigit
  repeat' split
  all_goals decide

theorem natDigitsGo_ne_newline :
    ∀ (fuel n : Nat) (acc : List Char), (∀ c ∈ acc, ¬c = '\n') →
      ∀ c ∈ natDigitsGo fuel n acc, ¬c = '\n' := by
  intro fuel
  induction fuel with
  | zero => intro n acc hacc c hc; exact hacc c hc
  | succ fuel ih =>
    intro n acc hacc c hc
    unfold natDigitsGo at hc
    split at hc
    · exact hacc c hc
    · refine ih (n / 10) (decDigit (n % 10) :: acc) ?_ c hc
      intro d hd
      rcases List.mem_cons.mp hd with hd | hd
      · rw [hd]; exact decDigit_ne_newline _
      · exact hacc d hd

theorem natRepr_ne_newline (n : Nat) : ∀ c ∈ (natRepr n).data, ¬c = '\n' := by
  intro c hc
  unfold natRepr at hc
  split at hc
  · rw [show ("0" : String).data = ['0'] from rfl] at hc
    rcases List.mem_singleton.mp hc with rfl
    decide
  · exact natDigitsGo_ne_newline n n [] (by simp) c hc

theorem string_mk_data (s : String) : String.mk s.data = s := rfl

theorem string_mk_append (x y : String) :
    String.mk (x.data ++ y.data) = x ++ y := by
  rw [← String.data_append, string_mk_data]

/-- The decomposition of the summary message into newline-separated runs. -/
theorem formatSummary_data (a u s : Nat) :
    (formatSummary a u s).data =
      "Import complete:".data ++ '\n' ::
        (("Notes added: ".data ++ (natRepr a).data) ++ '\n' ::
          (("Notes updated: ".data ++ (natRepr u).data) ++ '\n' ::
            ("Notes skipped (errors): ".data ++ (natRepr s).data))) := by
  unfold formatSummary
  simp only [String.data_append]
  simp [List.append_assoc]

/-- The summary message has exactly four lines: the fixed header and the
three counter lines. -/
theorem lineList_formatSummary (a u s : Nat) :
    lineList (formatSummary a u s) =
      ["Import complete:", "Notes added: " ++ natRepr a,
        "Notes updated: " ++ natRepr u, "Notes skipped (errors): " ++ natRepr s] := by
  have hI : ∀ c ∈ ("Import complete:" : String).data, ¬c = '\n' := by decide
  have hA0 : ∀ c ∈ ("Notes added: " : String).data, ¬c = '\n' := by decide
  have hU0 : ∀ c ∈ ("Notes updated: " : String).data, ¬c = '\n' := by decide
  have hS0 : ∀ c ∈ ("Notes skipped (errors): " : String).data, ¬c = '\n' := by decide
  have hA : ∀ c ∈ ("Notes added: " : String).data ++ (natRepr a).data, ¬c = '\n' := by
    intro c hc
    rcases List.mem_append.mp hc with hc | hc
    · exact hA0 c hc
    · exact natRepr_ne_newline a c hc
  have hU : ∀ c ∈ ("Notes updated: " : String).data ++ (natRepr u).data, ¬c = '\n' := by
    intro c hc
    rcases List.mem_append.mp hc with hc | hc
    · exact hU0 c hc
    · exact natRepr_ne_newline u c hc
  have hS : ∀ c ∈ ("Notes skipped (errors): " : String).data ++ (natRepr s).data,
      ¬c = '\n' := by
    intro c hc
    rcases List.mem_append.mp hc with hc | hc
    · exact hS0 c hc
    · exact natRepr_ne_newline s c hc
  unfold lineList pySplit
  rw [formatSummary_data,
    pySplitGo_sep_append '\n' _ _ [] hI,
    pySplitGo_sep_append '\n' _ _ [] hA,
    pySplitGo_sep_append '\n' _ _ [] hU,
    pySplitGo_no_sep '\n' _ [] hS]
  simp only [List.nil_append, List.map_cons, List.map_nil]
  rw [string_mk_data, string_mk_append, string_mk_append, string_mk_append]

/-- Claim C8 counterexample: a run that completes successfully whose
returned value has four lines, not three: the three counter lines are
preceded by a header line. -/
theorem claim_c8_counterexample :
    (import_japanese_vocab gwC8 "MyDeck" none).1 =
        ImportResult.returned (formatSummary 1 0 0) ∧
      (lineList (formatSummary 1 0 0)).length = 4 ∧
      ¬(lineList (formatSummary 1 0 0)).length = 3 := by
  refine ⟨by decide, by decide, by decide⟩

/-- Claim C8 (amended): every run that completes successfully (reaches the
commit) returns a human-readable four-line summary: a fixed header line
followed by one line for each of the added, updated and skipped counts. -/
theorem claim_c8 (g : Gateway) (deckName : String) (tags : Option String)
    (h : Event.commit ∈ (import_japanese_vocab g deckName tags).2) :
    ∃ a u s, (import_japanese_vocab g deckName tags).1 =
        ImportResult.returned (formatSummary a u s) ∧
      lineList (formatSummary a u s) =
        ["Import complete:", "Notes added: " ++ natRepr a,
          "Notes updated: " ++ natRepr u,
          "Notes skipped (errors): " ++ natRepr s] := by
  unfold import_japanese_vocab at h ⊢
  by_cases hd : g.deckExists
  · by_cases hn : g.notetypeExists
    · cases hs : g.source with
      | none => simp [hd, hn, hs] at h
      | some rows =>
        refine ⟨(runEntries (buildIndex g.existingNotes) g.rejectCreate
            ⟨g.existingNotes, [], 0, 0, 0⟩
            (read_vocab_csv rows (additionalTagsOf tags))).added,
          (runEntries (buildIndex g.existingNotes) g.rejectCreate
            ⟨g.existingNotes, [], 0, 0, 0⟩
            (read_vocab_csv rows (additionalTagsOf tags))).updated,
          (runEntries (buildIndex g.existingNotes) g.rejectCreate
            ⟨g.existingNotes, [], 0, 0, 0⟩
            (read_vocab_csv rows (additionalTagsOf tags))).skipped,
          ?_, lineList_formatSummary _ _ _⟩
        simp [hd, hn]
    · simp [hd, hn] at h
  · simp [hd] at h

/-- Witness for C8: the completed run on a concrete gateway. -/
theorem claim_c8_witness :
    ∃ a u s, (import_japanese_vocab gwC8 "MyDeck" none).1 =
        ImportResult.returned (formatSummary a u s) ∧
      lineList (formatSummary a u s) =
        ["Import complete:", "Notes added: " ++ natRepr a,
          "Notes updated: " ++ natRepr u,
          "Notes skipped (errors): " ++ natRepr s] :=
  claim_c8 gwC8 "MyDeck" none (by decide)

end AnkiMcp
